import Mathlib

/-!
Shallow embedding of the e-commerce order-processing agent.

The five domain tools are translated from `task_1/tools.py`; the
tool-orchestration loop is translated from `ecommerce_agent` in
`task_1/agent.py`; the sequential pipeline variant is translated from
`ecommerce_agent` in `agent.py`.

Monetary amounts and weights are modelled as exact rationals, quantities as
integers.  The external decision service (the LLM chat) is modelled as a
script: a function from the index of the `send_message` call to the outcome
of that call (an error raised, or a response whose `parts` either exist or
raise on access).  The random transaction-id suffix of `process_payment` is
modelled as a function from the count of prior payments to the suffix drawn.
-/

/-- A JSON-like value appearing in an order summary mapping. -/
inductive Value
  | str (s : String)
  | num (q : Rat)
  | int (n : Int)
  | bool (b : Bool)
  | null
deriving DecidableEq

/-- Python string rendering of a `Value` (used only in the email subject). -/
def Value.pyStr : Value → String
  | .str s => s
  | .num q => toString q
  | .int n => toString n
  | .bool b => if b then "True" else "False"
  | .null => "None"

/-- The order-summary argument of `send_confirmation_email`: a dict. -/
def OrderSummary := List (String × Value)
deriving DecidableEq

/-! ## The five tools, from `task_1/tools.py` -/

/-- Result dict of `check_inventory`.  Keys present only in one of the two
return branches are modelled as `Option` fields. -/
structure InventoryResult where
  product_id : String
  product_name : Option String
  available : Bool
  requested_quantity : Option Int
  stock : Int
  unit_price : Option Rat
  total_price : Option Rat
  reason : Option String
deriving DecidableEq

/-- The `inventory` table of `check_inventory`: name, stock, unit price. -/
def inventory : String → Option (String × Int × Int)
  | "LAPTOP-001" => some ("Business Laptop", 50, 1200)
  | "MOUSE-002" => some ("Wireless Mouse", 100, 25)
  | "KEYBOARD-003" => some ("Mechanical Keyboard", 30, 80)
  | "MONITOR-004" => some ("4K Monitor", 20, 450)
  | "HEADSET-005" => some ("Noise Cancelling Headset", 15, 150)
  | _ => none

/-- `check_inventory(product_id, quantity)` from `task_1/tools.py`. -/
def check_inventory (product_id : String) (quantity : Int) : InventoryResult :=
  match inventory product_id with
  | none =>
      { product_id := product_id
        product_name := none
        available := false
        requested_quantity := none
        stock := 0
        unit_price := none
        total_price := none
        reason := some "Product not found" }
  | some (name, stock, price) =>
      let available := decide (stock ≥ quantity)
      { product_id := product_id
        product_name := some name
        available := available
        requested_quantity := some quantity
        stock := stock
        unit_price := some (price : Rat)
        total_price := some (if available then ((price * quantity : Int) : Rat) else 0)
        reason := none }

/-- Result dict of `apply_discount`. -/
structure DiscountResult where
  discount_applied : Bool
  discount_code : Option String
  discount_description : Option String
  original_price : Rat
  discount_amount : Rat
  final_price : Rat
deriving DecidableEq

inductive DiscountType
  | percentage
  | fixed
deriving DecidableEq

structure DiscountEntry where
  dtype : DiscountType
  value : Rat
  description : String
deriving DecidableEq

/-- The `discounts` table of `apply_discount`. -/
def discounts : String → Option DiscountEntry
  | "WELCOME10" => some ⟨.percentage, 10, "10% off for new customers"⟩
  | "SAVE50" => some ⟨.fixed, 50, "$50 off orders over $500"⟩
  | "VIP20" => some ⟨.percentage, 20, "20% off for VIP members"⟩
  | _ => none

/-- `apply_discount(total_price, discount_code)` from `task_1/tools.py`.
A `none` code models Python `None`; `some ""` models the empty string, which
is falsy in the guard `if not discount_code or discount_code not in discounts`
(and is in any case absent from the table). -/
def apply_discount (total_price : Rat) (discount_code : Option String) : DiscountResult :=
  match discount_code.bind discounts with
  | none =>
      { discount_applied := false
        discount_code := discount_code
        discount_description := none
        original_price := total_price
        discount_amount := 0
        final_price := total_price }
  | some discount =>
      let discount_amount :=
        match discount.dtype with
        | .percentage => total_price * (discount.value / 100)
        | .fixed => min discount.value total_price
      { discount_applied := true
        discount_code := discount_code
        discount_description := some discount.description
        original_price := total_price
        discount_amount := discount_amount
        final_price := total_price - discount_amount }

/-- Result dict of `calculate_shipping`. -/
structure ShippingResult where
  destination : String
  available : Bool
  reason : Option String
  weight_kg : Option Rat
  shipping_cost : Rat
  estimated_delivery_days : Option Int
deriving DecidableEq

structure Zone where
  base_cost : Rat
  per_kg : Rat
  delivery_days : Int
deriving DecidableEq

/-- The `shipping_zones` table of `calculate_shipping`. -/
def shipping_zones : String → Option Zone
  | "Jakarta" => some ⟨10, 2, 1⟩
  | "Bandung" => some ⟨15, 3, 2⟩
  | "Surabaya" => some ⟨20, 4, 3⟩
  | "Bali" => some ⟨30, 5, 4⟩
  | "Singapore" => some ⟨50, 8, 5⟩
  | _ => none

/-- `calculate_shipping(destination_city, total_weight_kg)` from `task_1/tools.py`. -/
def calculate_shipping (destination_city : String) (total_weight_kg : Rat) : ShippingResult :=
  match shipping_zones destination_city with
  | none =>
      { destination := destination_city
        available := false
        reason := some "Shipping not available to this location"
        weight_kg := none
        shipping_cost := 0
        estimated_delivery_days := none }
  | some zone =>
      { destination := destination_city
        available := true
        reason := none
        weight_kg := some total_weight_kg
        shipping_cost := zone.base_cost + total_weight_kg * zone.per_kg
        estimated_delivery_days := some zone.delivery_days }

/-- Result dict of `process_payment`. -/
structure PaymentResult where
  success : Bool
  payment_method : String
  reason : Option String
  amount : Option Rat
  transaction_id : Option String
  status : Option String
deriving DecidableEq

def valid_methods : List String := ["credit_card", "bank_transfer", "ewallet"]

/-- `process_payment(amount, payment_method)` from `task_1/tools.py`.
The ten random characters drawn for the transaction id are supplied as the
explicit argument `txn_suffix`. -/
def process_payment (amount : Rat) (payment_method : String) (txn_suffix : String) :
    PaymentResult :=
  if payment_method ∉ valid_methods then
    { success := false
      payment_method := payment_method
      reason := some ("Invalid payment method. Valid methods: " ++
        String.intercalate ", " valid_methods)
      amount := none
      transaction_id := none
      status := none }
  else
    { success := true
      payment_method := payment_method
      reason := none
      amount := some amount
      transaction_id := some ("TXN-" ++ txn_suffix)
      status := some "completed" }

/-- Result dict of `send_confirmation_email`. -/
structure EmailResult where
  email_sent : Bool
  recipient : String
  subject : String
  order_summary : OrderSummary
  status : String
deriving DecidableEq

/-- `send_confirmation_email(customer_email, order_summary)` from `task_1/tools.py`. -/
def send_confirmation_email (customer_email : String) (order_summary : OrderSummary) :
    EmailResult :=
  { email_sent := true
    recipient := customer_email
    subject := "Order Confirmation - " ++
      (((order_summary : List (String × Value)).lookup "transaction_id").getD
        (.str "N/A")).pyStr
    order_summary := order_summary
    status := "delivered" }

example : (check_inventory "LAPTOP-001" 2).total_price = some 2400 := by
  norm_num [check_inventory, inventory]
example : (check_inventory "LAPTOP-001" 999).available = false := by decide
example : (apply_discount 2400 (some "WELCOME10")).final_price = 2160 := by
  norm_num [apply_discount, discounts]
example : (apply_discount 600 (some "SAVE50")).final_price = 550 := by
  norm_num [apply_discount, discounts]
example : (calculate_shipping "Jakarta" 5).shipping_cost = 20 := by
  norm_num [calculate_shipping, shipping_zones]
example : (process_payment 100 "cash" "AAAA").success = false := by decide

/-! ## The orchestration loop, from `ecommerce_agent` in `task_1/agent.py` -/

/-- The five registered tool names (the keys of `TOOL_FUNCTIONS`). -/
inductive ToolName
  | check_inventory
  | apply_discount
  | calculate_shipping
  | process_payment
  | send_confirmation_email
deriving DecidableEq

/-- The Python identifier of a tool name. -/
def ToolName.pyName : ToolName → String
  | .check_inventory => "check_inventory"
  | .apply_discount => "apply_discount"
  | .calculate_shipping => "calculate_shipping"
  | .process_payment => "process_payment"
  | .send_confirmation_email => "send_confirmation_email"

/-- One function call requested by the decision service, with its arguments
as declared in the function schemas of `TOOLS`.  An absent or null
`discount_code` is `none`; an explicit empty string is `some ""`. -/
inductive ToolCall
  | check_inventory (product_id : String) (quantity : Int)
  | apply_discount (total_price : Rat) (discount_code : Option String)
  | calculate_shipping (destination_city : String) (total_weight_kg : Rat)
  | process_payment (amount : Rat) (payment_method : String)
  | send_confirmation_email (customer_email : String) (order_summary : OrderSummary)
deriving DecidableEq

def ToolCall.name : ToolCall → ToolName
  | .check_inventory .. => .check_inventory
  | .apply_discount .. => .apply_discount
  | .calculate_shipping .. => .calculate_shipping
  | .process_payment .. => .process_payment
  | .send_confirmation_email .. => .send_confirmation_email

/-- The result dict returned by one tool execution. -/
inductive ToolResult
  | inventory (r : InventoryResult)
  | discount (r : DiscountResult)
  | shipping (r : ShippingResult)
  | payment (r : PaymentResult)
  | email (r : EmailResult)
deriving DecidableEq

/-- The tool that produced a result (each tool has its own result shape). -/
def ToolResult.name : ToolResult → ToolName
  | .inventory _ => .check_inventory
  | .discount _ => .apply_discount
  | .shipping _ => .calculate_shipping
  | .payment _ => .process_payment
  | .email _ => .send_confirmation_email

/-- The `tool_results` dict: one optional latest result per tool name. -/
structure ToolResults where
  check_inventory : Option InventoryResult
  apply_discount : Option DiscountResult
  calculate_shipping : Option ShippingResult
  process_payment : Option PaymentResult
  send_confirmation_email : Option EmailResult
deriving DecidableEq

def ToolResults.empty : ToolResults := ⟨none, none, none, none, none⟩

/-- `tool_results[tool_name] = result` (last write wins, keyed by name). -/
def ToolResults.set (tr : ToolResults) : ToolResult → ToolResults
  | .inventory r => { tr with check_inventory := some r }
  | .discount r => { tr with apply_discount := some r }
  | .shipping r => { tr with calculate_shipping := some r }
  | .payment r => { tr with process_payment := some r }
  | .email r => { tr with send_confirmation_email := some r }

/-- Dict lookup `tool_results.get(name)`. -/
def ToolResults.get (tr : ToolResults) : ToolName → Option ToolResult
  | .check_inventory => tr.check_inventory.map .inventory
  | .apply_discount => tr.apply_discount.map .discount
  | .calculate_shipping => tr.calculate_shipping.map .shipping
  | .process_payment => tr.process_payment.map .payment
  | .send_confirmation_email => tr.send_confirmation_email.map .email

/-- Membership test `name in tool_results`. -/
def ToolResults.has (tr : ToolResults) (n : ToolName) : Bool :=
  (tr.get n).isSome

/-- One `part` of a model response: a function call, a text part, or a part
carrying neither (skipped by the loop). -/
inductive RespPart
  | functionCall (c : ToolCall)
  | text (s : String)
  | blank
deriving DecidableEq

/-- Outcome of one `chat.send_message` call: the call raised an exception,
or returned a response whose `candidates[0].content.parts` is either
unreadable (access raises, modelled as `none`) or a list of parts. -/
inductive LLMOutcome
  | err (e : String)
  | resp (parts : Option (List RespPart))
deriving DecidableEq

/-- The external decision service: the outcome of the i-th `send_message`. -/
def Script := Nat → LLMOutcome

/-- The random-suffix source: the suffix drawn for the i-th payment. -/
def Rng := Nat → String

/-- One record of the run's history: the turn on which an operation was
executed, the call, and its result. -/
structure TraceEntry where
  turn : Nat
  call : ToolCall
  result : ToolResult
deriving DecidableEq

/-- The mutable state of one run of the agent loop.  `trace` is a ghost
record of every tool execution in order; `scriptIdx` counts `send_message`
calls already made; `payCount` counts payments already made. -/
structure AgentState where
  tool_results : ToolResults
  trace : List TraceEntry
  iteration : Nat
  scriptIdx : Nat
  payCount : Nat
  response : Option (List RespPart)
deriving DecidableEq

/-- Argument normalization performed by the loop:
`if tool_name == "apply_discount" and args.get("discount_code") == "":
args["discount_code"] = None`. -/
def normalize_args : ToolCall → ToolCall
  | .apply_discount tp (some "") => .apply_discount tp none
  | c => c

/-- `TOOL_FUNCTIONS[tool_name](**args)`, threading the payment counter. -/
def execTool (rng : Rng) (payCount : Nat) : ToolCall → ToolResult × Nat
  | .check_inventory p q => (.inventory (check_inventory p q), payCount)
  | .apply_discount tp dc => (.discount (apply_discount tp dc), payCount)
  | .calculate_shipping d w => (.shipping (calculate_shipping d w), payCount)
  | .process_payment a m => (.payment (process_payment a m (rng payCount)), payCount + 1)
  | .send_confirmation_email e o => (.email (send_confirmation_email e o), payCount)

/-- The three per-tool domain-failure checks the loop performs right after
recording a result (`not result.get("available")` / `not result.get("success")`),
returning the failure reason when one fires. -/
def check_domain_failure (tool_name : ToolName) (result : ToolResult) : Option String :=
  match tool_name, result with
  | .check_inventory, .inventory r => if r.available then none else some "Product unavailable"
  | .calculate_shipping, .shipping r => if r.available then none else some "Shipping unavailable"
  | .process_payment, .payment r => if r.success then none else some "Payment failed"
  | _, _ => none

/-- The dict returned by `ecommerce_agent`: a success flag, an optional
failure reason, and the `tool_results` dict. -/
structure RunResult where
  success : Bool
  reason : Option String
  tools : ToolResults
deriving DecidableEq

/-- Python `repr` of a list of strings, as interpolated by
`f"Incomplete: missing {missing}"`. -/
def pyStrList (xs : List String) : String :=
  let q := String.singleton (Char.ofNat 39)
  "[" ++ String.intercalate ", " (xs.map (fun s => q ++ s ++ q)) ++ "]"

/-- The `required` list of the post-loop check. -/
def required : List ToolName :=
  [.check_inventory, .process_payment, .send_confirmation_email]

/-- The post-loop required-operations check and final verdict. -/
def final_check (tr : ToolResults) : RunResult :=
  if required.all tr.has then
    { success := true, reason := none, tools := tr }
  else
    let missing := (required.filter (fun t => !tr.has t)).map ToolName.pyName
    { success := false
      reason := some ("Incomplete: missing " ++ pyStrList missing)
      tools := tr }

/-- Exit of the `for part in parts` loop: an early `return` from inside it,
or falling through to the code after it with the final `has_function_call`. -/
inductive PartsExit
  | ret (r : RunResult) (st : AgentState)
  | done (has_function_call : Bool) (st : AgentState)

/-- Exit of the `while` loop: an early `return`, or leaving the loop
(by `break` or by the iteration bound) and falling through to `final_check`. -/
inductive LoopExit
  | ret (r : RunResult) (st : AgentState)
  | brk (st : AgentState)

/-- The body of `for part in parts` in `ecommerce_agent`: executes requested
calls in order, records results, applies the three domain-failure checks,
and feeds each result back via `send_message`; a nonempty text part clears
`has_function_call` and breaks. -/
def processParts (script : Script) (rng : Rng) :
    List RespPart → AgentState → Bool → PartsExit
  | [], st, hfc => .done hfc st
  | part :: rest, st, hfc =>
    match part with
    | .blank => processParts script rng rest st hfc
    | .text s =>
      if s = "" then processParts script rng rest st hfc else .done false st
    | .functionCall c0 =>
      let c := normalize_args c0
      let (result, payCount) := execTool rng st.payCount c
      let st := { st with
        payCount := payCount
        tool_results := st.tool_results.set result
        trace := st.trace ++ [⟨st.iteration, c, result⟩] }
      match check_domain_failure c.name result with
      | some reason => .ret ⟨false, some reason, st.tool_results⟩ st
      | none =>
        match script st.scriptIdx with
        | .err e =>
          let st := { st with scriptIdx := st.scriptIdx + 1 }
          if st.tool_results.send_confirmation_email.isSome then .done true st
          else .ret ⟨false, some ("LLM error: " ++ e), st.tool_results⟩ st
        | .resp r =>
          processParts script rng rest
            { st with scriptIdx := st.scriptIdx + 1, response := r } true

/-- The `while iteration < max_iterations` loop of `ecommerce_agent`,
with `fuel` the number of remaining permitted iterations. -/
def runLoop (script : Script) (rng : Rng) : Nat → AgentState → LoopExit
  | 0, st => .brk st
  | fuel + 1, st =>
    let st := { st with iteration := st.iteration + 1 }
    match st.response with
    | none => .brk st
    | some parts =>
      match processParts script rng parts st false with
      | .ret r st => .ret r st
      | .done hfc st =>
        if !hfc then .brk st
        else if st.tool_results.send_confirmation_email.isSome then .brk st
        else runLoop script rng fuel st

/-- `ecommerce_agent(user_input, max_iterations)` from `task_1/agent.py`,
instrumented to also return the final loop state.  The opening
`chat.send_message` consumes script outcome 0; an exception there returns
`Failed` with the raw error message before the loop starts. -/
def ecommerce_agent_run (script : Script) (rng : Rng) (max_iterations : Nat) : LoopExit :=
  match script 0 with
  | .err e => .ret ⟨false, some e, ToolResults.empty⟩ ⟨ToolResults.empty, [], 0, 1, 0, none⟩
  | .resp r => runLoop script rng max_iterations ⟨ToolResults.empty, [], 0, 1, 0, r⟩

/-- The dict `ecommerce_agent` returns to its caller. -/
def ecommerce_agent (script : Script) (rng : Rng) (max_iterations : Nat) : RunResult :=
  match ecommerce_agent_run script rng max_iterations with
  | .ret r _ => r
  | .brk st => final_check st.tool_results

/-- Number of `while`-loop iterations the run performed. -/
def turns_executed (script : Script) (rng : Rng) (max_iterations : Nat) : Nat :=
  match ecommerce_agent_run script rng max_iterations with
  | .ret _ st => st.iteration
  | .brk st => st.iteration

/-- The run's execution history (ghost record of the instrumented state). -/
def run_trace (script : Script) (rng : Rng) (max_iterations : Nat) : List TraceEntry :=
  match ecommerce_agent_run script rng max_iterations with
  | .ret _ st => st.trace
  | .brk st => st.trace

/-! ## The sequential pipeline, from `ecommerce_agent` in `agent.py` -/

/-- The order details extracted from the user request by the (external)
extraction layer of `agent.py`. -/
structure OrderDetails where
  product_id : String
  quantity : Int
  destination : String
  discount_code : Option String
  payment_method : String
  customer_email : String

/-- The dict returned by the pipeline agent.  Each branch of the source
returns a different set of keys; absent keys are `none`. -/
structure PipelineResult where
  success : Bool
  reason : Option String
  inventory : Option InventoryResult
  discount : Option DiscountResult
  shipping : Option ShippingResult
  payment : Option PaymentResult
  email : Option EmailResult
  order_summary : Option OrderSummary

/-- `ecommerce_agent(user_input)` from `agent.py`, after order details have
been extracted.  Dict accesses on keys that are always present at the access
point (`total_price`, `product_name`, `transaction_id`,
`estimated_delivery_days` under the preceding success checks) are modelled
with `Option.getD`. -/
def ecommerce_agent_pipeline (od : OrderDetails) (txn_suffix : String) : PipelineResult :=
  let inventory_result := check_inventory od.product_id od.quantity
  if !inventory_result.available then
    { success := false
      reason := some "Product not available"
      inventory := some inventory_result
      discount := none, shipping := none, payment := none, email := none
      order_summary := none }
  else
    let discount_result :=
      apply_discount (inventory_result.total_price.getD 0) od.discount_code
    let estimated_weight := (od.quantity : Rat) * 2.5
    let shipping_result := calculate_shipping od.destination estimated_weight
    if !shipping_result.available then
      { success := false
        reason := some "Shipping not available"
        shipping := some shipping_result
        inventory := none, discount := none, payment := none, email := none
        order_summary := none }
    else
      let final_total := discount_result.final_price + shipping_result.shipping_cost
      let payment_result := process_payment final_total od.payment_method txn_suffix
      if !payment_result.success then
        { success := false
          reason := some "Payment failed"
          payment := some payment_result
          inventory := none, discount := none, shipping := none, email := none
          order_summary := none }
      else
        let order_summary : OrderSummary :=
          [("transaction_id", .str (payment_result.transaction_id.getD "")),
           ("product", .str (inventory_result.product_name.getD "")),
           ("quantity", .int od.quantity),
           ("subtotal", .num (inventory_result.total_price.getD 0)),
           ("discount", .num discount_result.discount_amount),
           ("shipping", .num shipping_result.shipping_cost),
           ("total", .num final_total),
           ("delivery_days", .int (shipping_result.estimated_delivery_days.getD 0))]
        let email_result := send_confirmation_email od.customer_email order_summary
        { success := true
          reason := none
          inventory := some inventory_result
          discount := some discount_result
          shipping := some shipping_result
          payment := some payment_result
          email := some email_result
          order_summary := some order_summary }

/-! ## Invariants of the orchestration loop -/

/-- Rebuild the `tool_results` dict from the execution history
(last write per tool name wins). -/
def buildMap (l : List TraceEntry) : ToolResults :=
  l.foldl (fun tr e => tr.set e.result) ToolResults.empty

/-- A history entry whose result trips one of the loop's domain-failure
checks. -/
def entryFails (e : TraceEntry) : Bool :=
  (check_domain_failure e.call.name e.result).isSome

/-- Every operation in the history succeeded in the domain sense. -/
def traceOk (l : List TraceEntry) : Prop :=
  ∀ e ∈ l, entryFails e = false

/-- State invariant of the loop: the results dict is the fold of the history,
each history entry pairs a call with a result of the same tool, and no entry
was executed on a later turn than the current one. -/
structure LoopInv (st : AgentState) : Prop where
  build : st.tool_results = buildMap st.trace
  wf : ∀ e ∈ st.trace, e.result.name = e.call.name
  turns : ∀ e ∈ st.trace, e.turn ≤ st.iteration

theorem ToolResults.get_set (tr : ToolResults) (res : ToolResult) (n : ToolName) :
    (tr.set res).get n = if n = res.name then some res else tr.get n := by
  cases res <;> cases n <;> simp [ToolResults.set, ToolResults.get, ToolResult.name]

theorem ToolResults.empty_get (n : ToolName) : ToolResults.empty.get n = none := by
  cases n <;> rfl

theorem buildMap_append (l : List TraceEntry) (e : TraceEntry) :
    buildMap (l ++ [e]) = (buildMap l).set e.result := by
  simp [buildMap, List.foldl_append]

theorem foldl_set_get_isSome (l : List TraceEntry) (tr : ToolResults) (n : ToolName)
    (h : (tr.get n).isSome) :
    ((l.foldl (fun tr e => tr.set e.result) tr).get n).isSome := by
  induction l generalizing tr with
  | nil => exact h
  | cons e l ih =>
    apply ih
    rw [ToolResults.get_set]
    split
    · rfl
    · exact h

theorem foldl_set_mem_isSome (l : List TraceEntry) (tr : ToolResults) (e : TraceEntry)
    (h : e ∈ l) :
    ((l.foldl (fun tr e => tr.set e.result) tr).get e.result.name).isSome := by
  induction l generalizing tr with
  | nil => cases h
  | cons e' l ih =>
    rw [List.foldl_cons]
    rcases List.mem_cons.mp h with h' | h'
    · subst h'
      apply foldl_set_get_isSome
      rw [ToolResults.get_set]
      simp
    · exact ih _ h'

theorem buildMap_get_isSome (l : List TraceEntry) (e : TraceEntry) (h : e ∈ l) :
    ((buildMap l).get e.result.name).isSome :=
  foldl_set_mem_isSome l ToolResults.empty e h

theorem foldl_set_get_mem (l : List TraceEntry) (tr : ToolResults) (n : ToolName)
    (res : ToolResult) (h : (l.foldl (fun tr e => tr.set e.result) tr).get n = some res) :
    (∃ e ∈ l, e.result = res) ∨ tr.get n = some res := by
  induction l generalizing tr with
  | nil => exact .inr h
  | cons e l ih =>
    rcases ih _ h with h' | h'
    · obtain ⟨e', he', hres⟩ := h'
      exact .inl ⟨e', List.mem_cons_of_mem _ he', hres⟩
    · rw [ToolResults.get_set] at h'
      split at h'
      · exact .inl ⟨e, List.mem_cons_self _ _, Option.some.inj h'⟩
      · exact .inr h'

theorem buildMap_get_mem (l : List TraceEntry) (n : ToolName) (res : ToolResult)
    (h : (buildMap l).get n = some res) : ∃ e ∈ l, e.result = res := by
  rcases foldl_set_get_mem l ToolResults.empty n res h with h' | h'
  · exact h'
  · rw [ToolResults.empty_get] at h'
    cases h'

theorem normalize_args_name (c : ToolCall) : (normalize_args c).name = c.name := by
  unfold normalize_args
  split <;> rfl

theorem execTool_name (rng : Rng) (pc : Nat) (c : ToolCall) :
    (execTool rng pc c).1.name = c.name := by
  cases c <;> rfl

/-- The state after recording one executed call: all loop invariants are
preserved. -/
theorem LoopInv.step {st : AgentState} (hinv : LoopInv st) (c : ToolCall) (res : ToolResult)
    (pc : Nat) (hname : res.name = c.name) :
    LoopInv { st with payCount := pc,
                      tool_results := st.tool_results.set res,
                      trace := st.trace ++ [⟨st.iteration, c, res⟩] } := by
  constructor
  · show st.tool_results.set res = buildMap (st.trace ++ [⟨st.iteration, c, res⟩])
    rw [buildMap_append, hinv.build]
  · intro e he
    rcases List.mem_append.mp he with h | h
    · exact hinv.wf e h
    · rw [List.mem_singleton.mp h]
      exact hname
  · intro e he
    rcases List.mem_append.mp he with h | h
    · exact hinv.turns e h
    · rw [List.mem_singleton.mp h]

/-- Changing only the script index and pending response preserves the
invariants. -/
theorem LoopInv.retarget {st : AgentState} (hinv : LoopInv st) (i : Nat)
    (r : Option (List RespPart)) :
    LoopInv { st with scriptIdx := i, response := r } :=
  ⟨hinv.build, hinv.wf, hinv.turns⟩

/-- What holds when the `for part in parts` loop falls through: invariants
and domain-success of the whole history are preserved, the turn counter is
untouched, and any new history entry was executed on the current turn. -/
theorem processParts_done_spec (script : Script) (rng : Rng) :
    ∀ (parts : List RespPart) (st : AgentState) (hfc hfc' : Bool) (st' : AgentState),
      processParts script rng parts st hfc = .done hfc' st' →
      LoopInv st → traceOk st.trace →
      LoopInv st' ∧ traceOk st'.trace ∧ st'.iteration = st.iteration ∧
        (∀ e ∈ st'.trace, e ∈ st.trace ∨ e.turn = st.iteration) := by
  intro parts
  induction parts with
  | nil =>
    intro st hfc hfc' st' h hinv hok
    simp only [processParts] at h
    cases h
    exact ⟨hinv, hok, rfl, fun e he => .inl he⟩
  | cons part rest ih =>
    intro st hfc hfc' st' h hinv hok
    cases part with
    | blank =>
      exact ih st hfc hfc' st' h hinv hok
    | text s =>
      by_cases hs : s = ""
      · subst hs
        exact ih st hfc hfc' st' h hinv hok
      · simp only [processParts, if_neg hs] at h
        cases h
        exact ⟨hinv, hok, rfl, fun e he => .inl he⟩
    | functionCall c0 =>
      simp only [processParts] at h
      have hname : (execTool rng st.payCount (normalize_args c0)).1.name =
          (normalize_args c0).name := execTool_name ..
      split at h
      · cases h
      · next hcdf =>
        have hstep := hinv.step (normalize_args c0)
          (execTool rng st.payCount (normalize_args c0)).1
          (execTool rng st.payCount (normalize_args c0)).2 hname
        have hokstep : traceOk (st.trace ++
            [⟨st.iteration, normalize_args c0,
              (execTool rng st.payCount (normalize_args c0)).1⟩]) := by
          intro e he
          rcases List.mem_append.mp he with h' | h'
          · exact hok e h'
          · rw [List.mem_singleton.mp h']
            simp [entryFails, hcdf]
        split at h
        · split at h
          · cases h
            refine ⟨⟨hstep.build, hstep.wf, hstep.turns⟩, hokstep, rfl, ?_⟩
            intro e' he'
            rcases List.mem_append.mp he' with h' | h'
            · exact .inl h'
            · rw [List.mem_singleton.mp h']
              exact .inr rfl
          · cases h
        · obtain ⟨hinv', hok', hiter, hnew⟩ :=
            ih _ true hfc' st' h (hstep.retarget _ _) hokstep
          refine ⟨hinv', hok', hiter, ?_⟩
          intro e' he'
          rcases hnew e' he' with h' | h'
          · rcases List.mem_append.mp h' with h'' | h''
            · exact .inl h''
            · rw [List.mem_singleton.mp h'']
              exact .inr rfl
          · exact .inr h'

/-- What holds when the `for part in parts` loop returns early: the returned
dict is the recorded results, the flag is failure, and the reason is either
an LLM feed-back error or the domain-failure reason of the last (and only
failing) operation in the history. -/
theorem processParts_ret_spec (script : Script) (rng : Rng) :
    ∀ (parts : List RespPart) (st : AgentState) (hfc : Bool) (r : RunResult) (st' : AgentState),
      processParts script rng parts st hfc = .ret r st' →
      LoopInv st → traceOk st.trace →
      LoopInv st' ∧ st'.iteration = st.iteration ∧ r.tools = st'.tool_results ∧
        r.success = false ∧
        (∀ e ∈ st'.trace, e ∈ st.trace ∨ e.turn = st.iteration) ∧
        ((traceOk st'.trace ∧ ∃ i e, script i = .err e ∧
            r.reason = some ("LLM error: " ++ e)) ∨
         (∃ pre ce, st'.trace = pre ++ [ce] ∧ traceOk pre ∧
            check_domain_failure ce.call.name ce.result = r.reason)) := by
  intro parts
  induction parts with
  | nil =>
    intro st hfc r st' h hinv hok
    simp only [processParts] at h
    cases h
  | cons part rest ih =>
    intro st hfc r st' h hinv hok
    cases part with
    | blank =>
      exact ih st hfc r st' h hinv hok
    | text s =>
      by_cases hs : s = ""
      · subst hs
        exact ih st hfc r st' h hinv hok
      · simp only [processParts, if_neg hs] at h
        cases h
    | functionCall c0 =>
      simp only [processParts] at h
      have hname : (execTool rng st.payCount (normalize_args c0)).1.name =
          (normalize_args c0).name := execTool_name ..
      split at h
      · next reason hcdf =>
        have hstep := hinv.step (normalize_args c0)
          (execTool rng st.payCount (normalize_args c0)).1
          (execTool rng st.payCount (normalize_args c0)).2 hname
        cases h
        refine ⟨⟨hstep.build, hstep.wf, hstep.turns⟩, rfl, rfl, rfl, ?_, .inr ?_⟩
        · intro e' he'
          rcases List.mem_append.mp he' with h' | h'
          · exact .inl h'
          · rw [List.mem_singleton.mp h']
            exact .inr rfl
        · exact ⟨st.trace, ⟨st.iteration, normalize_args c0,
            (execTool rng st.payCount (normalize_args c0)).1⟩, rfl, hok, hcdf⟩
      · next hcdf =>
        have hstep := hinv.step (normalize_args c0)
          (execTool rng st.payCount (normalize_args c0)).1
          (execTool rng st.payCount (normalize_args c0)).2 hname
        have hokstep : traceOk (st.trace ++
            [⟨st.iteration, normalize_args c0,
              (execTool rng st.payCount (normalize_args c0)).1⟩]) := by
          intro e he
          rcases List.mem_append.mp he with h' | h'
          · exact hok e h'
          · rw [List.mem_singleton.mp h']
            simp [entryFails, hcdf]
        split at h
        · next e hscript =>
          split at h
          · cases h
          · cases h
            refine ⟨⟨hstep.build, hstep.wf, hstep.turns⟩, rfl, rfl, rfl, ?_, .inl ?_⟩
            · intro e' he'
              rcases List.mem_append.mp he' with h' | h'
              · exact .inl h'
              · rw [List.mem_singleton.mp h']
                exact .inr rfl
            · exact ⟨hokstep, _, e, hscript, rfl⟩
        · obtain ⟨hinv', hiter, htools, hsucc, hnew, hdisj⟩ :=
            ih _ true r st' h (hstep.retarget _ _) hokstep
          have hnew' : ∀ e ∈ st'.trace, e ∈ st.trace ∨ e.turn = st.iteration := by
            intro e' he'
            rcases hnew e' he' with h' | h'
            · rcases List.mem_append.mp h' with h'' | h''
              · exact .inl h''
              · rw [List.mem_singleton.mp h'']
                exact .inr rfl
            · exact .inr h'
          exact ⟨hinv', hiter, htools, hsucc, hnew', hdisj⟩

/-- If `send_confirmation_email` has no recorded result, it never appears in
the history. -/
theorem no_email_in_trace {st : AgentState} (hinv : LoopInv st)
    (hmail : st.tool_results.send_confirmation_email = none) :
    ∀ e ∈ st.trace, e.call.name ≠ .send_confirmation_email := by
  intro e he hname
  have hres : e.result.name = .send_confirmation_email := (hinv.wf e he).trans hname
  have hs := buildMap_get_isSome st.trace e he
  rw [← hinv.build, hres] at hs
  simp [ToolResults.get, hmail] at hs

/-- Starting a new turn preserves the invariants. -/
theorem LoopInv.bump {st : AgentState} (hinv : LoopInv st) :
    LoopInv { st with iteration := st.iteration + 1 } := by
  refine ⟨hinv.build, hinv.wf, ?_⟩
  intro e he
  exact Nat.le_succ_of_le (hinv.turns e he)

/-- What holds when the `while` loop exits by `break` or by exhausting the
iteration bound: invariants and domain success of the history are preserved,
at most `fuel` further turns were used, and every `send_confirmation_email`
execution happened on the turn the loop stopped at. -/
theorem runLoop_brk_spec (script : Script) (rng : Rng) :
    ∀ (fuel : Nat) (st st' : AgentState),
      runLoop script rng fuel st = .brk st' →
      LoopInv st → traceOk st.trace →
      st.tool_results.send_confirmation_email = none →
      LoopInv st' ∧ traceOk st'.trace ∧ st'.iteration ≤ st.iteration + fuel ∧
        (∀ e ∈ st'.trace, e.call.name = .send_confirmation_email →
          e.turn = st'.iteration) := by
  intro fuel
  induction fuel with
  | zero =>
    intro st st' h hinv hok hmail
    simp only [runLoop] at h
    cases h
    exact ⟨hinv, hok, Nat.le_refl _,
      fun e he hname => absurd hname (no_email_in_trace hinv hmail e he)⟩
  | succ fuel ih =>
    intro st st' h hinv hok hmail
    simp only [runLoop] at h
    split at h
    · cases h
      refine ⟨hinv.bump, hok, ?_, ?_⟩
      · show st.iteration + 1 ≤ st.iteration + (fuel + 1)
        omega
      · intro e he hname
        exact absurd hname (no_email_in_trace hinv.bump hmail e he)
    · next parts hresp =>
      split at h
      · cases h
      · next hfc2 st2 hpp =>
        obtain ⟨hinv2, hok2, hiter2, hnew2⟩ :=
          processParts_done_spec script rng parts _ false hfc2 st2 hpp hinv.bump hok
        have hiter2' : st2.iteration = st.iteration + 1 := hiter2
        have hemail2 : ∀ e ∈ st2.trace, e.call.name = .send_confirmation_email →
            e.turn = st2.iteration := by
          intro e he hname
          rcases hnew2 e he with h' | h'
          · exact absurd hname (no_email_in_trace hinv.bump hmail e h')
          · rw [h', hiter2]
        split at h
        · cases h
          exact ⟨hinv2, hok2, by omega, hemail2⟩
        · split at h
          · cases h
            exact ⟨hinv2, hok2, by omega, hemail2⟩
          · next hmail2 =>
            have hmail2' : st2.tool_results.send_confirmation_email = none := by
              cases hx : st2.tool_results.send_confirmation_email
              · rfl
              · rw [hx] at hmail2
                simp at hmail2
            obtain ⟨hinv', hok', hiter', hemail'⟩ := ih st2 st' h hinv2 hok2 hmail2'
            exact ⟨hinv', hok', by omega, hemail'⟩

/-- What holds when the `while` loop returns early: the returned flag is
failure, the returned dict is the recorded results, the reason is an LLM
feed-back error or the domain-failure reason of the last (and only failing)
history entry, and every `send_confirmation_email` execution happened on the
final turn. -/
theorem runLoop_ret_spec (script : Script) (rng : Rng) :
    ∀ (fuel : Nat) (st : AgentState) (r : RunResult) (st' : AgentState),
      runLoop script rng fuel st = .ret r st' →
      LoopInv st → traceOk st.trace →
      st.tool_results.send_confirmation_email = none →
      LoopInv st' ∧ st'.iteration ≤ st.iteration + fuel ∧ r.tools = st'.tool_results ∧
        r.success = false ∧
        (∀ e ∈ st'.trace, e.call.name = .send_confirmation_email →
          e.turn = st'.iteration) ∧
        ((traceOk st'.trace ∧ ∃ i e, script i = .err e ∧
            r.reason = some ("LLM error: " ++ e)) ∨
         (∃ pre ce, st'.trace = pre ++ [ce] ∧ traceOk pre ∧
            check_domain_failure ce.call.name ce.result = r.reason)) := by
  intro fuel
  induction fuel with
  | zero =>
    intro st r st' h hinv hok hmail
    simp only [runLoop] at h
    cases h
  | succ fuel ih =>
    intro st r st' h hinv hok hmail
    simp only [runLoop] at h
    split at h
    · cases h
    · next parts hresp =>
      split at h
      · next r0 st2 hpp =>
        cases h
        obtain ⟨hinv2, hiter2, htools, hsucc, hnew2, hdisj⟩ :=
          processParts_ret_spec script rng parts _ false r st' hpp hinv.bump hok
        have hiter2' : st'.iteration = st.iteration + 1 := hiter2
        refine ⟨hinv2, by omega, htools, hsucc, ?_, hdisj⟩
        intro e he hname
        rcases hnew2 e he with h' | h'
        · exact absurd hname (no_email_in_trace hinv.bump hmail e h')
        · rw [h', hiter2]
      · next hfc2 st2 hpp =>
        obtain ⟨hinv2, hok2, hiter2, hnew2⟩ :=
          processParts_done_spec script rng parts _ false hfc2 st2 hpp hinv.bump hok
        have hiter2' : st2.iteration = st.iteration + 1 := hiter2
        split at h
        · cases h
        · split at h
          · cases h
          · next hmail2 =>
            have hmail2' : st2.tool_results.send_confirmation_email = none := by
              cases hx : st2.tool_results.send_confirmation_email
              · rfl
              · rw [hx] at hmail2
                simp at hmail2
            obtain ⟨hinv', hiter', htools', hsucc', hemail', hdisj'⟩ :=
              ih st2 r st' h hinv2 hok2 hmail2'
            exact ⟨hinv', by omega, htools', hsucc', hemail', hdisj'⟩

/-- Classification of the domain-failure reasons. -/
theorem check_domain_failure_cases (n : ToolName) (res : ToolResult) :
    check_domain_failure n res = none ∨
    check_domain_failure n res = some "Product unavailable" ∨
    check_domain_failure n res = some "Shipping unavailable" ∨
    check_domain_failure n res = some "Payment failed" := by
  unfold check_domain_failure
  split
  · split
    · exact .inl rfl
    · exact .inr (.inl rfl)
  · split
    · exact .inl rfl
    · exact .inr (.inr (.inl rfl))
  · split
    · exact .inl rfl
    · exact .inr (.inr (.inr rfl))
  · exact .inl rfl

/-- The final verdict of the post-loop check: success, or an incompleteness
reason built from a list of missing names. -/
theorem final_check_reason (tr : ToolResults) :
    (final_check tr).reason = none ∨
    ∃ missing, (final_check tr).reason =
      some ("Incomplete: missing " ++ pyStrList missing) := by
  unfold final_check
  split
  · exact .inl rfl
  · exact .inr ⟨_, rfl⟩

/-- Everything the loop-level invariants give about a completed run, split
by how the run ended (early `return` versus falling through to the
required-operations check). -/
theorem ecommerce_agent_run_spec (script : Script) (rng : Rng) (N : Nat) :
    match ecommerce_agent_run script rng N with
    | .ret r st => LoopInv st ∧ st.iteration ≤ N ∧ r.tools = st.tool_results ∧
        r.success = false ∧
        (∀ e ∈ st.trace, e.call.name = .send_confirmation_email →
          e.turn = st.iteration) ∧
        ((traceOk st.trace ∧ ∃ i e, script i = .err e ∧
            r.reason = some ("LLM error: " ++ e)) ∨
         (∃ pre ce, st.trace = pre ++ [ce] ∧ traceOk pre ∧
            check_domain_failure ce.call.name ce.result = r.reason) ∨
         (st.trace = [] ∧ ∃ e, script 0 = .err e ∧ r.reason = some e))
    | .brk st => LoopInv st ∧ traceOk st.trace ∧ st.iteration ≤ N ∧
        (∀ e ∈ st.trace, e.call.name = .send_confirmation_email →
          e.turn = st.iteration) := by
  have hinv0 : LoopInv ⟨ToolResults.empty, [], 0, 1, 0, none⟩ :=
    ⟨rfl, fun e he => absurd he (List.not_mem_nil e),
      fun e he => absurd he (List.not_mem_nil e)⟩
  cases hs0 : script 0 with
  | err e =>
    have hrun_eq : ecommerce_agent_run script rng N =
        .ret ⟨false, some e, ToolResults.empty⟩ ⟨ToolResults.empty, [], 0, 1, 0, none⟩ := by
      unfold ecommerce_agent_run
      rw [hs0]
    rw [hrun_eq]
    exact ⟨hinv0, Nat.zero_le N, rfl, rfl,
      fun e' he' => absurd he' (List.not_mem_nil e'),
      .inr (.inr ⟨rfl, e, rfl, rfl⟩)⟩
  | resp r0 =>
    have hinv0' : LoopInv ⟨ToolResults.empty, [], 0, 1, 0, r0⟩ :=
      ⟨rfl, fun e he => absurd he (List.not_mem_nil e),
        fun e he => absurd he (List.not_mem_nil e)⟩
    have hok0 : traceOk ([] : List TraceEntry) :=
      fun e he => absurd he (List.not_mem_nil e)
    have hrun_eq : ecommerce_agent_run script rng N =
        runLoop script rng N ⟨ToolResults.empty, [], 0, 1, 0, r0⟩ := by
      unfold ecommerce_agent_run
      rw [hs0]
    rw [hrun_eq]
    cases hrun : runLoop script rng N ⟨ToolResults.empty, [], 0, 1, 0, r0⟩ with
    | ret r' st =>
      obtain ⟨hinv', hiter', htools', hsucc', hemail', hdisj'⟩ :=
        runLoop_ret_spec script rng N _ r' st hrun hinv0' hok0 rfl
      refine ⟨hinv', by simpa using hiter', htools', hsucc', hemail', ?_⟩
      rcases hdisj' with h | h
      · exact .inl h
      · exact .inr (.inl h)
    | brk st =>
      obtain ⟨hinv', hok', hiter', hemail'⟩ :=
        runLoop_brk_spec script rng N _ st hrun hinv0' hok0 rfl
      exact ⟨hinv', hok', by simpa using hiter', hemail'⟩

/-- An incompleteness reason is never the ordering-violation message. -/
theorem incomplete_ne_ordering (s : String) :
    "Incomplete: missing " ++ s ≠
      "ordering violation: process_payment before its prerequisite" := by
  intro h
  have h2 := congrArg String.data h
  rw [show ∀ t : String, ("Incomplete: missing " ++ t).data =
      "Incomplete: missing ".data ++ t.data from fun _ => rfl] at h2
  simp at h2

/-- Under a decision service that never raises, no run of the loop ever
reports the ordering-violation reason (no such check exists in the loop). -/
theorem no_ordering_violation_reason (script : Script) (rng : Rng) (N : Nat)
    (hne : ∀ i e, script i ≠ .err e) :
    (ecommerce_agent script rng N).reason ≠
      some "ordering violation: process_payment before its prerequisite" := by
  have hspec := ecommerce_agent_run_spec script rng N
  unfold ecommerce_agent
  cases hrun : ecommerce_agent_run script rng N with
  | ret r st =>
    rw [hrun] at hspec
    obtain ⟨-, -, -, -, -, hdisj⟩ := hspec
    rcases hdisj with ⟨-, i, e, herr, -⟩ | ⟨pre, ce, -, -, hcdf⟩ | ⟨-, e, herr, -⟩
    · exact absurd herr (hne i e)
    · rcases check_domain_failure_cases ce.call.name ce.result with h | h | h | h <;>
        rw [h] at hcdf <;> rw [← hcdf] <;> simp
    · exact absurd herr (hne 0 e)
  | brk st =>
    rw [hrun] at hspec
    rcases final_check_reason st.tool_results with h | ⟨missing, h⟩
    · rw [h]
      simp
    · rw [h]
      intro hcontra
      exact incomplete_ne_ordering _ (Option.some.inj hcontra)

/-- A fixed transaction-id suffix source. -/
def rng0 : Rng := fun _ => "ABCDEFGHIJ"

/-- A decision service that immediately requests `process_payment`, then
sends a plain text message. -/
def payment_first_script : Script := fun n =>
  match n with
  | 0 => .resp (some [.functionCall (.process_payment 100 "credit_card")])
  | _ => .resp (some [.text "done"])

/-- A decision service whose output is never interpretable: accessing
`response.candidates[0].content.parts` raises every turn. -/
def unparseable_script : Script := fun _ => .resp none

/-- A decision service that requests `check_inventory` on every turn,
forever. -/
def always_inventory_script : Script := fun _ =>
  .resp (some [.functionCall (.check_inventory "LAPTOP-001" 1)])

theorem payment_first_script_ne_err : ∀ i e, payment_first_script i ≠ .err e := by
  intro i e h
  cases i <;> exact LLMOutcome.noConfusion h

/-- C1 counterexample.  When the decision maker requests `process_payment`
as its first invocation, the request IS executed (recorded in the returned
tools dict and in the history, with a successful payment result), and the
run does not end with the ordering-violation reason claimed by the spec: it
ends with an incompleteness reason instead. -/
theorem C1_claim_false :
    (ecommerce_agent payment_first_script rng0 15).reason ≠
      some "ordering violation: process_payment before its prerequisite" ∧
    (ecommerce_agent payment_first_script rng0 15).tools.process_payment.isSome = true ∧
    (run_trace payment_first_script rng0 15).length = 1 ∧
    (ecommerce_agent payment_first_script rng0 15).reason =
      some ("Incomplete: missing " ++
        pyStrList ["check_inventory", "send_confirmation_email"]) := by
  refine ⟨?_, by decide, by decide, by decide⟩
  have h : (ecommerce_agent payment_first_script rng0 15).reason =
      some ("Incomplete: missing " ++
        pyStrList ["check_inventory", "send_confirmation_email"]) := by decide
  rw [h]
  intro hcontra
  exact incomplete_ne_ordering _ (Option.some.inj hcontra)

/-- C1 (amended): the loop performs no ordering validation at all.  A
`process_payment` request issued before any `check_inventory` or
`calculate_shipping` is executed and recorded as a successful operation, and
no run (under a decision service that never raises) ever fails with
"ordering violation: process_payment before its prerequisite"; the
payment-first run instead ends failed as incomplete, with the executed
payment retained in the record. -/
theorem C1_no_ordering_validation :
    (∀ (script : Script) (rng : Rng) (N : Nat), (∀ i e, script i ≠ .err e) →
      (ecommerce_agent script rng N).reason ≠
        some "ordering violation: process_payment before its prerequisite") ∧
    (ecommerce_agent payment_first_script rng0 15).tools.process_payment =
      some (process_payment 100 "credit_card" "ABCDEFGHIJ") ∧
    (process_payment 100 "credit_card" "ABCDEFGHIJ").success = true ∧
    (ecommerce_agent payment_first_script rng0 15).success = false ∧
    (ecommerce_agent payment_first_script rng0 15).reason =
      some ("Incomplete: missing " ++
        pyStrList ["check_inventory", "send_confirmation_email"]) ∧
    run_trace payment_first_script rng0 15 =
      [⟨1, .process_payment 100 "credit_card",
        .payment (process_payment 100 "credit_card" "ABCDEFGHIJ")⟩] := by
  exact ⟨no_ordering_violation_reason, rfl, by decide, by decide, by decide, rfl⟩

/-- C1 witness: the general part of the amended claim applied to the
payment-first run. -/
theorem C1_no_ordering_validation_witness :
    (ecommerce_agent payment_first_script rng0 15).reason ≠
      some "ordering violation: process_payment before its prerequisite" :=
  C1_no_ordering_validation.1 payment_first_script rng0 15 payment_first_script_ne_err

/-- The loop never performs more turns than the configured bound. -/
theorem turns_executed_le (script : Script) (rng : Rng) (N : Nat) :
    turns_executed script rng N ≤ N := by
  have hspec := ecommerce_agent_run_spec script rng N
  unfold turns_executed
  cases hrun : ecommerce_agent_run script rng N with
  | ret r st =>
    rw [hrun] at hspec
    exact hspec.2.1
  | brk st =>
    rw [hrun] at hspec
    exact hspec.2.2.1

/-- C2 counterexample.  For the always-unparseable decision service with the
default bound of 15, the run does terminate, but after exactly one turn (not
15) and with an incompleteness reason: the failure reason
"turn limit exceeded" claimed by the spec does not occur. -/
theorem C2_claim_false :
    (ecommerce_agent unparseable_script rng0 15).reason ≠ some "turn limit exceeded" ∧
    turns_executed unparseable_script rng0 15 = 1 := by
  exact ⟨by decide, by decide⟩

/-- C2 (amended): every run performs at most `max_iterations` turns, so the
loop never runs forever; but there is no "turn limit exceeded" verdict.  A
decision service whose output is always unparseable ends the run after the
first turn (the loop breaks as soon as a turn carries no function call) with
`Failed("Incomplete: missing [check_inventory, process_payment,
send_confirmation_email]")`, while a decision service that requests an
invocation on every turn is cut off after exactly 15 turns and the run then
fails the required-operations check. -/
theorem C2_turn_bound :
    (∀ (script : Script) (rng : Rng) (N : Nat), turns_executed script rng N ≤ N) ∧
    turns_executed unparseable_script rng0 15 = 1 ∧
    (ecommerce_agent unparseable_script rng0 15).success = false ∧
    (ecommerce_agent unparseable_script rng0 15).reason =
      some ("Incomplete: missing " ++
        pyStrList ["check_inventory", "process_payment", "send_confirmation_email"]) ∧
    turns_executed always_inventory_script rng0 15 = 15 ∧
    (ecommerce_agent always_inventory_script rng0 15).reason =
      some ("Incomplete: missing " ++
        pyStrList ["process_payment", "send_confirmation_email"]) := by
  exact ⟨turns_executed_le, by decide, by decide, by decide, by decide, by decide⟩

/-- If some history entry trips a domain-failure check, the run returned
early at that very entry: it is the last entry, everything before it was
domain-successful, the verdict is failure with exactly that check's reason,
and the returned dict still contains the failing result. -/
theorem trace_failure_spec (script : Script) (rng : Rng) (N : Nat) (en : TraceEntry)
    (hmem : en ∈ run_trace script rng N) (hfail : entryFails en = true) :
    (ecommerce_agent script rng N).success = false ∧
    (ecommerce_agent script rng N).reason = check_domain_failure en.call.name en.result ∧
    ∃ pre, run_trace script rng N = pre ++ [en] ∧ traceOk pre ∧
      (ecommerce_agent script rng N).tools = (buildMap pre).set en.result := by
  have hspec := ecommerce_agent_run_spec script rng N
  cases hrun : ecommerce_agent_run script rng N with
  | brk st =>
    have htrace : run_trace script rng N = st.trace := by
      unfold run_trace
      rw [hrun]
    rw [hrun] at hspec
    rw [htrace] at hmem
    have := hspec.2.1 en hmem
    rw [hfail] at this
    cases this
  | ret r st =>
    have htrace : run_trace script rng N = st.trace := by
      unfold run_trace
      rw [hrun]
    have hagent : ecommerce_agent script rng N = r := by
      unfold ecommerce_agent
      rw [hrun]
    rw [hrun] at hspec
    obtain ⟨hinv, hiter, htools, hsucc, hemail, hdisj⟩ := hspec
    rw [htrace] at hmem
    rcases hdisj with ⟨hok, -⟩ | ⟨pre, ce, heq, hokpre, hcdf⟩ | ⟨hempty, -⟩
    · have := hok en hmem
      rw [hfail] at this
      cases this
    · have hce : en = ce := by
        rw [heq] at hmem
        rcases List.mem_append.mp hmem with h' | h'
        · have := hokpre en h'
          rw [hfail] at this
          cases this
        · exact List.mem_singleton.mp h'
      subst hce
      refine ⟨?_, ?_, pre, ?_, hokpre, ?_⟩
      · rw [hagent]
        exact hsucc
      · rw [hagent]
        exact hcdf.symm
      · rw [htrace, heq]
      · rw [hagent, htools, hinv.build, heq, buildMap_append]
    · rw [hempty] at hmem
      cases hmem

/-- Scenario B: the decision maker first asks for a quantity exceeding
stock. -/
def scenarioB_script : Script := fun n =>
  match n with
  | 0 => .resp (some [.functionCall (.check_inventory "LAPTOP-001" 999)])
  | _ => .resp (some [.text "done"])

/-- C3 counterexample.  When `check_inventory` reports `available = false`,
the run does terminate immediately with the failing result attached and a
one-entry history, but the reason string is "Product unavailable", not the
"Product not available" stated in the claim (and the shipping reason is
"Shipping unavailable", not "Shipping not available"). -/
theorem C3_claim_false :
    (ecommerce_agent scenarioB_script rng0 15).reason ≠ some "Product not available" ∧
    (ecommerce_agent scenarioB_script rng0 15).reason = some "Product unavailable" := by
  exact ⟨by decide, by decide⟩

/-- C3 (amended): executing `check_inventory` with `available = false`
terminates the run immediately (the failing execution is the last history
entry and every earlier operation was domain-successful) as `Failed` with
reason "Product unavailable" (not "Product not available") and the failing
result attached; likewise `calculate_shipping` with `available = false`
yields `Failed("Shipping unavailable")` and `process_payment` with
`success = false` yields `Failed("Payment failed")`.  When the failing
inventory check is the first requested operation, the history contains
exactly that one operation. -/
theorem C3_domain_failures :
    (∀ (script : Script) (rng : Rng) (N t : Nat) (p : String) (q : Int)
        (ir : InventoryResult),
      (⟨t, .check_inventory p q, .inventory ir⟩ : TraceEntry) ∈ run_trace script rng N →
      ir.available = false →
      (ecommerce_agent script rng N).success = false ∧
      (ecommerce_agent script rng N).reason = some "Product unavailable" ∧
      (ecommerce_agent script rng N).tools.check_inventory = some ir ∧
      ∃ pre, run_trace script rng N =
        pre ++ [⟨t, .check_inventory p q, .inventory ir⟩] ∧ traceOk pre) ∧
    (∀ (script : Script) (rng : Rng) (N t : Nat) (d : String) (w : Rat)
        (sr : ShippingResult),
      (⟨t, .calculate_shipping d w, .shipping sr⟩ : TraceEntry) ∈ run_trace script rng N →
      sr.available = false →
      (ecommerce_agent script rng N).success = false ∧
      (ecommerce_agent script rng N).reason = some "Shipping unavailable" ∧
      (ecommerce_agent script rng N).tools.calculate_shipping = some sr ∧
      ∃ pre, run_trace script rng N =
        pre ++ [⟨t, .calculate_shipping d w, .shipping sr⟩] ∧ traceOk pre) ∧
    (∀ (script : Script) (rng : Rng) (N t : Nat) (a : Rat) (m : String)
        (pr : PaymentResult),
      (⟨t, .process_payment a m, .payment pr⟩ : TraceEntry) ∈ run_trace script rng N →
      pr.success = false →
      (ecommerce_agent script rng N).success = false ∧
      (ecommerce_agent script rng N).reason = some "Payment failed" ∧
      (ecommerce_agent script rng N).tools.process_payment = some pr ∧
      ∃ pre, run_trace script rng N =
        pre ++ [⟨t, .process_payment a m, .payment pr⟩] ∧ traceOk pre) ∧
    (run_trace scenarioB_script rng0 15 =
      [⟨1, .check_inventory "LAPTOP-001" 999,
        .inventory (check_inventory "LAPTOP-001" 999)⟩] ∧
     (check_inventory "LAPTOP-001" 999).available = false) := by
  refine ⟨?_, ?_, ?_, rfl, by decide⟩
  · intro script rng N t p q ir hmem hav
    have hfail : entryFails (⟨t, .check_inventory p q, .inventory ir⟩ : TraceEntry) = true := by
      simp [entryFails, check_domain_failure, ToolCall.name, hav]
    obtain ⟨hsucc, hreason, pre, heq, hokpre, htools⟩ :=
      trace_failure_spec script rng N _ hmem hfail
    refine ⟨hsucc, ?_, ?_, pre, heq, hokpre⟩
    · rw [hreason]
      simp [check_domain_failure, ToolCall.name, hav]
    · rw [htools]
      rfl
  · intro script rng N t d w sr hmem hav
    have hfail : entryFails (⟨t, .calculate_shipping d w, .shipping sr⟩ : TraceEntry) = true := by
      simp [entryFails, check_domain_failure, ToolCall.name, hav]
    obtain ⟨hsucc, hreason, pre, heq, hokpre, htools⟩ :=
      trace_failure_spec script rng N _ hmem hfail
    refine ⟨hsucc, ?_, ?_, pre, heq, hokpre⟩
    · rw [hreason]
      simp [check_domain_failure, ToolCall.name, hav]
    · rw [htools]
      rfl
  · intro script rng N t a m pr hmem hsuc
    have hfail : entryFails (⟨t, .process_payment a m, .payment pr⟩ : TraceEntry) = true := by
      simp [entryFails, check_domain_failure, ToolCall.name, hsuc]
    obtain ⟨hsucc, hreason, pre, heq, hokpre, htools⟩ :=
      trace_failure_spec script rng N _ hmem hfail
    refine ⟨hsucc, ?_, ?_, pre, heq, hokpre⟩
    · rw [hreason]
      simp [check_domain_failure, ToolCall.name, hsuc]
    · rw [htools]
      rfl

/-- C3 witness: the inventory part of the amended claim applied to the
scenario-B run. -/
theorem C3_domain_failures_witness :
    (ecommerce_agent scenarioB_script rng0 15).success = false ∧
    (ecommerce_agent scenarioB_script rng0 15).reason = some "Product unavailable" ∧
    (ecommerce_agent scenarioB_script rng0 15).tools.check_inventory =
      some (check_inventory "LAPTOP-001" 999) ∧
    ∃ pre, run_trace scenarioB_script rng0 15 =
      pre ++ [⟨1, .check_inventory "LAPTOP-001" 999,
        .inventory (check_inventory "LAPTOP-001" 999)⟩] ∧ traceOk pre :=
  C3_domain_failures.1 scenarioB_script rng0 15 1 "LAPTOP-001" 999
    (check_inventory "LAPTOP-001" 999)
    (List.mem_singleton_self _) (by decide)

/-- Every result still recorded in the dict of a domain-successful history
passes its domain check. -/
theorem recorded_result_ok {st : AgentState} (hinv : LoopInv st) (hok : traceOk st.trace)
    (res : ToolResult) (n : ToolName) (hget : st.tool_results.get n = some res)
    (hn : res.name = n) :
    check_domain_failure n res = none := by
  rw [hinv.build] at hget
  obtain ⟨e, he, hres⟩ := buildMap_get_mem st.trace n res hget
  have hcall : e.call.name = n := by
    rw [← hinv.wf e he, hres, hn]
  have hfail := hok e he
  unfold entryFails at hfail
  rw [hcall, hres] at hfail
  cases hcdf : check_domain_failure n res with
  | none => rfl
  | some s =>
    rw [hcdf] at hfail
    cases hfail

theorem final_check_tools (tr : ToolResults) : (final_check tr).tools = tr := by
  unfold final_check
  split <;> rfl

theorem final_check_success (tr : ToolResults) :
    (final_check tr).success = true → required.all tr.has = true := by
  unfold final_check
  split
  · next h => exact fun _ => h
  · intro h
    cases h

/-- The missing-operations list of the post-loop check is alphabetically
sorted (it follows the order of `required`). -/
theorem missing_sorted (tr : ToolResults) :
    List.Sorted (fun a b => a ≤ b)
      ((required.filter (fun t => !tr.has t)).map ToolName.pyName) := by
  cases h1 : tr.has .check_inventory <;> cases h2 : tr.has .process_payment <;>
    cases h3 : tr.has .send_confirmation_email <;>
      simp [required, List.filter, h1, h2, h3, ToolName.pyName] <;> decide

/-- A run reports success only when all three required operations are
recorded, and the recorded inventory and payment results are non-failing. -/
theorem agent_success_required (script : Script) (rng : Rng) (N : Nat)
    (h : (ecommerce_agent script rng N).success = true) :
    (∃ ir, (ecommerce_agent script rng N).tools.check_inventory = some ir ∧
      ir.available = true) ∧
    (∃ pr, (ecommerce_agent script rng N).tools.process_payment = some pr ∧
      pr.success = true) ∧
    (ecommerce_agent script rng N).tools.send_confirmation_email.isSome = true := by
  have hspec := ecommerce_agent_run_spec script rng N
  cases hrun : ecommerce_agent_run script rng N with
  | ret r st =>
    have hagent : ecommerce_agent script rng N = r := by
      unfold ecommerce_agent
      rw [hrun]
    rw [hrun] at hspec
    rw [hagent] at h
    rw [hspec.2.2.2.1] at h
    cases h
  | brk st =>
    have hagent : ecommerce_agent script rng N = final_check st.tool_results := by
      unfold ecommerce_agent
      rw [hrun]
    rw [hrun] at hspec
    obtain ⟨hinv, hok, -, -⟩ := hspec
    rw [hagent] at h ⊢
    have hall := final_check_success _ h
    simp only [required, List.all_cons, List.all_nil, Bool.and_true,
      Bool.and_eq_true] at hall
    obtain ⟨hc, hp, he⟩ := hall
    rw [final_check_tools]
    refine ⟨?_, ?_, ?_⟩
    · unfold ToolResults.has ToolResults.get at hc
      cases hci : st.tool_results.check_inventory with
      | none =>
        rw [hci] at hc
        cases hc
      | some ir =>
        refine ⟨ir, rfl, ?_⟩
        have hcdf := recorded_result_ok hinv hok (.inventory ir) .check_inventory
          (by unfold ToolResults.get; rw [hci]; rfl) rfl
        cases hav : ir.available with
        | true => rfl
        | false => simp [check_domain_failure, hav] at hcdf
    · unfold ToolResults.has ToolResults.get at hp
      cases hpr : st.tool_results.process_payment with
      | none =>
        rw [hpr] at hp
        cases hp
      | some pr =>
        refine ⟨pr, rfl, ?_⟩
        have hcdf := recorded_result_ok hinv hok (.payment pr) .process_payment
          (by unfold ToolResults.get; rw [hpr]; rfl) rfl
        cases hsu : pr.success with
        | true => rfl
        | false => simp [check_domain_failure, hsu] at hcdf
    · unfold ToolResults.has ToolResults.get at he
      cases hem : st.tool_results.send_confirmation_email with
      | none =>
        rw [hem] at he
        cases he
      | some er => rfl

/-- C4 counterexample.  A run that fails the inventory check ends `Failed`
with reason "Product unavailable" even though the required operations are
not all present in its history — not with the "incomplete: missing ..."
reason the claim predicts for every non-success (and the code's
incompleteness reasons are capitalized "Incomplete: missing [...]"). -/
theorem C4_claim_false :
    (ecommerce_agent scenarioB_script rng0 15).success = false ∧
    (ecommerce_agent scenarioB_script rng0 15).tools.process_payment = none ∧
    (ecommerce_agent scenarioB_script rng0 15).tools.send_confirmation_email = none ∧
    (ecommerce_agent scenarioB_script rng0 15).reason = some "Product unavailable" ∧
    (ecommerce_agent scenarioB_script rng0 15).reason ≠
      some ("incomplete: missing " ++
        pyStrList ["process_payment", "send_confirmation_email"]) ∧
    (ecommerce_agent scenarioB_script rng0 15).reason ≠
      some ("incomplete: missing " ++
        pyStrList ["check_inventory", "process_payment", "send_confirmation_email"]) := by
  exact ⟨by decide, by decide, by decide, by decide, by decide, by decide⟩

/-- C4 (amended): the verdict is `Succeeded` only if `check_inventory`,
`process_payment` and `send_confirmation_email` all appear in the recorded
results with non-failing results; and when the run reaches the post-loop
required-operations guard (rather than failing earlier with a specific
reason), a missing required operation yields
`Failed("Incomplete: missing <sorted list of the absent required names>")`,
the list containing exactly the absent required operations. -/
theorem C4_required_check :
    (∀ (script : Script) (rng : Rng) (N : Nat),
      (ecommerce_agent script rng N).success = true →
      (∃ ir, (ecommerce_agent script rng N).tools.check_inventory = some ir ∧
        ir.available = true) ∧
      (∃ pr, (ecommerce_agent script rng N).tools.process_payment = some pr ∧
        pr.success = true) ∧
      (ecommerce_agent script rng N).tools.send_confirmation_email.isSome = true) ∧
    (∀ (script : Script) (rng : Rng) (N : Nat) (st : AgentState),
      ecommerce_agent_run script rng N = .brk st →
      required.all st.tool_results.has = false →
      (ecommerce_agent script rng N).success = false ∧
      (ecommerce_agent script rng N).reason = some ("Incomplete: missing " ++
        pyStrList ((required.filter
          (fun t => !st.tool_results.has t)).map ToolName.pyName)) ∧
      List.Sorted (fun a b => a ≤ b)
        ((required.filter (fun t => !st.tool_results.has t)).map ToolName.pyName) ∧
      (∀ t, t ∈ required.filter (fun t => !st.tool_results.has t) ↔
        t ∈ required ∧ st.tool_results.has t = false)) := by
  constructor
  · exact agent_success_required
  · intro script rng N st hrun hmiss
    have hagent : ecommerce_agent script rng N = final_check st.tool_results := by
      unfold ecommerce_agent
      rw [hrun]
    have hne : ¬ required.all st.tool_results.has = true := by
      rw [hmiss]
      exact Bool.false_ne_true
    rw [hagent]
    unfold final_check
    rw [if_neg hne]
    refine ⟨rfl, rfl, missing_sorted _, ?_⟩
    intro t
    simp [List.mem_filter]

/-- C4 witness: the post-loop guard applied to the run of the
always-unparseable decision service. -/
theorem C4_required_check_witness :
    (ecommerce_agent unparseable_script rng0 15).success = false ∧
    (ecommerce_agent unparseable_script rng0 15).reason = some ("Incomplete: missing " ++
      pyStrList ((required.filter
        (fun t => !(ToolResults.empty).has t)).map ToolName.pyName)) ∧
    List.Sorted (fun a b => a ≤ b)
      ((required.filter (fun t => !(ToolResults.empty).has t)).map ToolName.pyName) ∧
    (∀ t, t ∈ required.filter (fun t => !(ToolResults.empty).has t) ↔
      t ∈ required ∧ (ToolResults.empty).has t = false) :=
  C4_required_check.2 unparseable_script rng0 15
    ⟨ToolResults.empty, [], 1, 1, 0, none⟩ rfl (by decide)

/-- C5: on every terminal outcome the returned record is exactly the fold of
the execution history (so partial progress is never discarded), and every
operation executed before termination has a recorded result in the returned
dict.  (The run function itself is total by construction: every exception
path of the source is one of the modelled return branches.) -/
theorem C5_partial_progress :
    ∀ (script : Script) (rng : Rng) (N : Nat),
      (ecommerce_agent script rng N).tools = buildMap (run_trace script rng N) ∧
      ∀ e ∈ run_trace script rng N,
        ((ecommerce_agent script rng N).tools.get e.call.name).isSome = true := by
  intro script rng N
  have hspec := ecommerce_agent_run_spec script rng N
  cases hrun : ecommerce_agent_run script rng N with
  | ret r st =>
    have hagent : ecommerce_agent script rng N = r := by
      unfold ecommerce_agent
      rw [hrun]
    have htrace : run_trace script rng N = st.trace := by
      unfold run_trace
      rw [hrun]
    rw [hrun] at hspec
    obtain ⟨hinv, -, htools, -, -, -⟩ := hspec
    rw [hagent, htrace, htools, hinv.build]
    refine ⟨rfl, ?_⟩
    intro e he
    rw [← hinv.wf e he]
    exact buildMap_get_isSome st.trace e he
  | brk st =>
    have hagent : ecommerce_agent script rng N = final_check st.tool_results := by
      unfold ecommerce_agent
      rw [hrun]
    have htrace : run_trace script rng N = st.trace := by
      unfold run_trace
      rw [hrun]
    rw [hrun] at hspec
    obtain ⟨hinv, -, -, -⟩ := hspec
    rw [hagent, htrace, final_check_tools, hinv.build]
    refine ⟨rfl, ?_⟩
    intro e he
    rw [← hinv.wf e he]
    exact buildMap_get_isSome st.trace e he

/-- C5 witness: the retained inventory result of the scenario-B run. -/
theorem C5_partial_progress_witness :
    ((ecommerce_agent scenarioB_script rng0 15).tools.get
      (ToolCall.check_inventory "LAPTOP-001" 999).name).isSome = true :=
  (C5_partial_progress scenarioB_script rng0 15).2
    ⟨1, .check_inventory "LAPTOP-001" 999,
      .inventory (check_inventory "LAPTOP-001" 999)⟩
    (List.mem_singleton_self _)

/-- C6: discount application is percentage-of-subtotal
(`total_price * value / 100`) or fixed-amount capped at the subtotal
(`min value total_price`), with `final_price = total_price - discount_amount`;
shipping for a serviceable destination costs `base_cost + weight * per_kg`;
and the amount the pipeline passes to `process_payment` is exactly the
discounted final price plus the shipping cost computed from the same run's
earlier results, with weight `quantity * 2.5`. -/
theorem C6_financial_semantics :
    (∀ (tp : Rat) (c : String) (d : DiscountEntry), discounts c = some d →
      (apply_discount tp (some c)).discount_amount =
        (match d.dtype with
         | .percentage => tp * (d.value / 100)
         | .fixed => min d.value tp) ∧
      (apply_discount tp (some c)).final_price =
        tp - (apply_discount tp (some c)).discount_amount) ∧
    (∀ (city : String) (z : Zone) (w : Rat), shipping_zones city = some z →
      (calculate_shipping city w).available = true ∧
      (calculate_shipping city w).shipping_cost = z.base_cost + w * z.per_kg) ∧
    (∀ (od : OrderDetails) (suffix : String) (pr : PaymentResult),
      (ecommerce_agent_pipeline od suffix).payment = some pr →
      pr = process_payment
        ((apply_discount ((check_inventory od.product_id od.quantity).total_price.getD 0)
            od.discount_code).final_price +
          (calculate_shipping od.destination ((od.quantity : Rat) * 2.5)).shipping_cost)
        od.payment_method suffix) := by
  refine ⟨?_, ?_, ?_⟩
  · intro tp c d hd
    unfold apply_discount
    rw [show (some c).bind discounts = discounts c from rfl, hd]
    exact ⟨rfl, rfl⟩
  · intro city z w hz
    unfold calculate_shipping
    rw [hz]
    exact ⟨rfl, rfl⟩
  · intro od suffix pr h
    unfold ecommerce_agent_pipeline at h
    dsimp only at h
    split at h
    · simp at h
    · split at h
      · simp at h
      · split at h
        · simp at h
          exact h.symm
        · simp at h
          exact h.symm

/-- The scenario-A order details: 2 laptops to Jakarta with WELCOME10 paid
by credit card. -/
def scenarioA_details : OrderDetails :=
  ⟨"LAPTOP-001", 2, "Jakarta", some "WELCOME10", "credit_card", "john@example.com"⟩

/-- C6 witness: the financial semantics evaluated on scenario A. -/
theorem C6_financial_semantics_witness :
    ((apply_discount 2400 (some "WELCOME10")).discount_amount =
        2400 * ((10 : Rat) / 100) ∧
      (apply_discount 2400 (some "WELCOME10")).final_price =
        2400 - (apply_discount 2400 (some "WELCOME10")).discount_amount) ∧
    ((calculate_shipping "Jakarta" 5).available = true ∧
      (calculate_shipping "Jakarta" 5).shipping_cost = 10 + 5 * 2) ∧
    (ecommerce_agent_pipeline scenarioA_details "ABCDEFGHIJ").payment =
      some (process_payment
        ((apply_discount ((check_inventory scenarioA_details.product_id
              scenarioA_details.quantity).total_price.getD 0)
            scenarioA_details.discount_code).final_price +
          (calculate_shipping scenarioA_details.destination
            ((scenarioA_details.quantity : Rat) * 2.5)).shipping_cost)
        scenarioA_details.payment_method "ABCDEFGHIJ") := by
  refine ⟨C6_financial_semantics.1 2400 "WELCOME10"
      ⟨.percentage, 10, "10% off for new customers"⟩ rfl,
    C6_financial_semantics.2.1 "Jakarta" ⟨10, 2, 1⟩ 5 rfl, ?_⟩
  have h := C6_financial_semantics.2.2 scenarioA_details "ABCDEFGHIJ" _ rfl
  exact h ▸ rfl

/-- C7: the loop's argument normalization replaces an explicit empty-string
discount code by null (so `apply_discount` receives no code, exactly as if
the argument had been omitted — its declared default is null), leaves an
explicit null code as null, and passes every other call through completely
unchanged; executing the normalized call runs `apply_discount` with no
code. -/
theorem C7_argument_normalization :
    (∀ tp : Rat, normalize_args (.apply_discount tp (some "")) =
      .apply_discount tp none) ∧
    (∀ tp : Rat, normalize_args (.apply_discount tp none) = .apply_discount tp none) ∧
    (∀ c : ToolCall, (∀ tp : Rat, c ≠ .apply_discount tp (some "")) →
      normalize_args c = c) ∧
    (∀ (rng : Rng) (pc : Nat) (tp : Rat),
      execTool rng pc (normalize_args (.apply_discount tp (some ""))) =
        (.discount (apply_discount tp none), pc)) := by
  refine ⟨fun tp => rfl, fun tp => rfl, ?_, fun rng pc tp => rfl⟩
  intro c h
  unfold normalize_args
  split
  · next tp => exact absurd rfl (h tp)
  · rfl

/-- C7 witness: normalization applied to an empty-string discount code, and
to a call of another operation. -/
theorem C7_argument_normalization_witness :
    normalize_args (.apply_discount 100 (some "")) = .apply_discount 100 none ∧
    normalize_args (.check_inventory "LAPTOP-001" 2) =
      .check_inventory "LAPTOP-001" 2 :=
  ⟨C7_argument_normalization.1 100,
    C7_argument_normalization.2.2.1 (.check_inventory "LAPTOP-001" 2)
      (fun _ h => ToolCall.noConfusion h)⟩

/-- A decision service that immediately requests `send_confirmation_email`,
then sends a plain text message. -/
def email_first_script : Script := fun n =>
  match n with
  | 0 => .resp (some [.functionCall (.send_confirmation_email "a@b.c" [])])
  | _ => .resp (some [.text "done"])

/-- C8 counterexample.  When `send_confirmation_email` is present in history
at the end of the first turn, the loop indeed performs no further turns, but
it does NOT transition to `Succeeded`: with `check_inventory` and
`process_payment` missing, the run ends `Failed("Incomplete: missing
[check_inventory, process_payment]")`. -/
theorem C8_claim_false :
    turns_executed email_first_script rng0 15 = 1 ∧
    (ecommerce_agent email_first_script rng0 15).tools.send_confirmation_email.isSome
      = true ∧
    (ecommerce_agent email_first_script rng0 15).success = false ∧
    (ecommerce_agent email_first_script rng0 15).reason =
      some ("Incomplete: missing " ++
        pyStrList ["check_inventory", "process_payment"]) := by
  exact ⟨by decide, by decide, by decide, by decide⟩

/-- C8 (amended): once `send_confirmation_email` has executed, the loop
performs no further turns — the turn on which any email execution happened
is the run's final turn; but the run then goes through the
required-operations check rather than to an unconditional success: when the
loop exits normally, the verdict is `Succeeded` exactly when all three
required operations (not just the email) are recorded. -/
theorem C8_email_stops_loop :
    (∀ (script : Script) (rng : Rng) (N : Nat) (e : TraceEntry),
      e ∈ run_trace script rng N → e.call.name = .send_confirmation_email →
      e.turn = turns_executed script rng N) ∧
    (∀ (script : Script) (rng : Rng) (N : Nat) (st : AgentState),
      ecommerce_agent_run script rng N = .brk st →
      ((ecommerce_agent script rng N).success = true ↔
        required.all st.tool_results.has = true)) := by
  constructor
  · intro script rng N e hmem hname
    have hspec := ecommerce_agent_run_spec script rng N
    cases hrun : ecommerce_agent_run script rng N with
    | ret r st =>
      have htrace : run_trace script rng N = st.trace := by
        unfold run_trace
        rw [hrun]
      have hturns : turns_executed script rng N = st.iteration := by
        unfold turns_executed
        rw [hrun]
      rw [hrun] at hspec
      rw [htrace] at hmem
      rw [hturns]
      exact hspec.2.2.2.2.1 e hmem hname
    | brk st =>
      have htrace : run_trace script rng N = st.trace := by
        unfold run_trace
        rw [hrun]
      have hturns : turns_executed script rng N = st.iteration := by
        unfold turns_executed
        rw [hrun]
      rw [hrun] at hspec
      rw [htrace] at hmem
      rw [hturns]
      exact hspec.2.2.2 e hmem hname
  · intro script rng N st hrun
    have hagent : ecommerce_agent script rng N = final_check st.tool_results := by
      unfold ecommerce_agent
      rw [hrun]
    rw [hagent]
    unfold final_check
    split
    · next hc => simp [hc]
    · next hc =>
      simp only [Bool.not_eq_true] at hc
      simp [hc]

/-- C8 witness: the email-first run stops on turn 1, the turn its email
executed on. -/
theorem C8_email_stops_loop_witness :
    (⟨1, .send_confirmation_email "a@b.c" [],
      .email (send_confirmation_email "a@b.c" [])⟩ : TraceEntry).turn =
      turns_executed email_first_script rng0 15 :=
  C8_email_stops_loop.1 email_first_script rng0 15 _
    (List.mem_singleton_self _) rfl

/-- C9: `process_payment` succeeds exactly for the three valid methods; on
success the returned amount is the input amount unchanged and the
transaction id is "TXN-" followed by the drawn suffix; on failure the
transaction id is null. -/
theorem C9_process_payment_spec :
    ∀ (amount : Rat) (method suffix : String),
      ((process_payment amount method suffix).success = true ↔
        (method = "credit_card" ∨ method = "bank_transfer" ∨ method = "ewallet")) ∧
      ((process_payment amount method suffix).success = true →
        (process_payment amount method suffix).amount = some amount ∧
        (process_payment amount method suffix).transaction_id =
          some ("TXN-" ++ suffix)) ∧
      ((process_payment amount method suffix).success = false →
        (process_payment amount method suffix).transaction_id = none) := by
  intro amount method suffix
  by_cases hm : method ∈ valid_methods
  · have hred : process_payment amount method suffix =
        { success := true, payment_method := method, reason := none,
          amount := some amount, transaction_id := some ("TXN-" ++ suffix),
          status := some "completed" } := by
      unfold process_payment
      rw [if_neg (fun hc => hc hm)]
    rw [hred]
    refine ⟨?_, fun _ => ⟨rfl, rfl⟩, ?_⟩
    · constructor
      · intro _
        simpa [valid_methods] using hm
      · intro _
        rfl
    · intro h
      cases h
  · have hred : process_payment amount method suffix =
        { success := false, payment_method := method,
          reason := some ("Invalid payment method. Valid methods: " ++
            String.intercalate ", " valid_methods),
          amount := none, transaction_id := none, status := none } := by
      unfold process_payment
      rw [if_pos hm]
    rw [hred]
    refine ⟨?_, ?_, fun _ => rfl⟩
    · constructor
      · intro h
        cases h
      · intro hd
        exact absurd (by simpa [valid_methods] using hd) hm
    · intro h
      cases h

/-- C9 witness: a credit-card payment of 100 succeeds with the amount
passed through and a TXN-prefixed transaction id. -/
theorem C9_process_payment_spec_witness :
    (process_payment 100 "credit_card" "SUFFIX1234").success = true ∧
    (process_payment 100 "credit_card" "SUFFIX1234").amount = some 100 ∧
    (process_payment 100 "credit_card" "SUFFIX1234").transaction_id =
      some ("TXN-" ++ "SUFFIX1234") :=
  ⟨(C9_process_payment_spec 100 "credit_card" "SUFFIX1234").1.mpr (.inl rfl),
    (C9_process_payment_spec 100 "credit_card" "SUFFIX1234").2.1
      ((C9_process_payment_spec 100 "credit_card" "SUFFIX1234").1.mpr (.inl rfl))⟩

/-- C10: a discount code that is not one of the three known codes —
including null and the empty string — is silently treated as no discount:
`discount_applied = false`, `discount_amount = 0`, and the final price is
the unchanged input price. -/
theorem C10_unknown_discount_code :
    ∀ (tp : Rat) (code : Option String),
      (∀ s, code = some s → s ≠ "WELCOME10" ∧ s ≠ "SAVE50" ∧ s ≠ "VIP20") →
      (apply_discount tp code).discount_applied = false ∧
      (apply_discount tp code).discount_amount = 0 ∧
      (apply_discount tp code).final_price = tp ∧
      (apply_discount tp code).original_price = tp := by
  intro tp code h
  have hbind : code.bind discounts = none := by
    cases code with
    | none => rfl
    | some s =>
      obtain ⟨h1, h2, h3⟩ := h s rfl
      show discounts s = none
      unfold discounts
      split
      · exact absurd rfl h1
      · exact absurd rfl h2
      · exact absurd rfl h3
      · rfl
  unfold apply_discount
  rw [hbind]
  exact ⟨rfl, rfl, rfl, rfl⟩

/-- C10 witness: an unrecognized code "BOGUS" leaves the price unchanged. -/
theorem C10_unknown_discount_code_witness :
    (apply_discount 100 (some "BOGUS")).discount_applied = false ∧
    (apply_discount 100 (some "BOGUS")).discount_amount = 0 ∧
    (apply_discount 100 (some "BOGUS")).final_price = 100 ∧
    (apply_discount 100 (some "BOGUS")).original_price = 100 :=
  C10_unknown_discount_code 100 (some "BOGUS")
    (fun s hs => by cases hs; exact ⟨by decide, by decide, by decide⟩)
